import Mathlib

/-!
Verification development for the zag repository: a shallow embedding of the
state-machine interpreter core, the tree-view connect layer and the combobox
connect layer, with theorems checking the natural-language specification
against the code.

The interpreter itself (package `@ui-machines/core`) is not part of the
inspected sources; only its widget configurations and connect-layer callers
are.  Its embedding below is therefore modelled from the specification text
(sections 2-5 and 8 of spec.md), as indicated on each definition.  The
tree-view and combobox connect layers are embedded directly from their
TypeScript sources.
-/

namespace ZagCore

/-- Modelled from the spec: an event is a tagged record with a string type and
a payload; the payload shape is opaque to the interpreter, so it is abstracted
as a natural number here. -/
structure MEvent where
  type : String
  payload : Nat := 0
  deriving Repr, DecidableEq

/-- Modelled from the spec: a guard is a named predicate or a combinator
expression built with and / or / not over guard expressions (section 4.2). -/
inductive GuardExpr where
  | gname (g : String)
  | gand (gs : List GuardExpr)
  | gor (gs : List GuardExpr)
  | gnot (g : GuardExpr)
  deriving Repr

namespace guards

/-- Source combinator `and(g1, g2, ...)` over named guards. -/
def and (gs : List String) : GuardExpr := GuardExpr.gand (gs.map GuardExpr.gname)

/-- Source combinator `or(g1, g2, ...)` over named guards. -/
def or (gs : List String) : GuardExpr := GuardExpr.gor (gs.map GuardExpr.gname)

/-- Source combinator `not(g)` over a named guard. -/
def not (g : String) : GuardExpr := GuardExpr.gnot (GuardExpr.gname g)

end guards

variable {C : Type}

mutual

/-- Modelled from the spec: evaluate a guard expression against the guard
implementation map, the context and the triggering event (section 4.2). -/
def evalGuard (impl : String → C → MEvent → Bool) (c : C) (e : MEvent) :
    GuardExpr → Bool
  | GuardExpr.gname g => impl g c e
  | GuardExpr.gand gs => evalGuardAll impl c e gs
  | GuardExpr.gor gs => evalGuardAny impl c e gs
  | GuardExpr.gnot g => !evalGuard impl c e g

/-- Conjunction over a list of guard expressions: true iff all are true. -/
def evalGuardAll (impl : String → C → MEvent → Bool) (c : C) (e : MEvent) :
    List GuardExpr → Bool
  | [] => true
  | g :: gs => evalGuard impl c e g && evalGuardAll impl c e gs

/-- Disjunction over a list of guard expressions: true iff any is true. -/
def evalGuardAny (impl : String → C → MEvent → Bool) (c : C) (e : MEvent) :
    List GuardExpr → Bool
  | [] => false
  | g :: gs => evalGuard impl c e g || evalGuardAny impl c e gs

end

/-- Modelled from the spec: a transition has an optional guard, an optional
target state id, and an ordered list of named actions (section 3). -/
structure Transition where
  cond : Option GuardExpr := none
  target : Option String := none
  actions : List String := []

/-- Modelled from the spec: a state node has ordered entry and exit action
lists, an ordered activity list, an event-type-keyed transition table (field `on` in the source schema, renamed `onMap` here) and a
delay-keyed `after` table (sections 3 and 6). -/
structure StateNode where
  entry : List String := []
  exit : List String := []
  activities : List String := []
  onMap : List (String × List Transition) := []
  after : List (Nat × Transition) := []

/-- Modelled from the spec: a machine definition has an initial state id, a
named state table and a machine-global transition table (sections 3 and 6). -/
structure Machine where
  initial : String
  states : List (String × StateNode) := []
  globalOn : List (String × List Transition) := []

/-- Look up a state node by id, defaulting to the empty node. -/
def stateNode (m : Machine) (s : String) : StateNode :=
  (m.states.lookup s).getD {}

/-- Modelled from the spec: a transition with no guard is always enabled; a
guarded one is enabled iff its guard evaluates true (section 4.1 step 2). -/
def transitionEnabled (impl : String → C → MEvent → Bool) (c : C) (e : MEvent)
    (t : Transition) : Bool :=
  match t.cond with
  | none => true
  | some g => evalGuard impl c e g

/-- Modelled from the spec: candidate transitions for an event type come from
the current state's `on` map, and only when that key is absent there from the
machine-global `on` map (section 4.1 step 1). -/
def candidates (m : Machine) (sn : StateNode) (etype : String) : List Transition :=
  match sn.onMap.lookup etype with
  | some ts => ts
  | none => (m.globalOn.lookup etype).getD []

/-- Modelled from the spec: the selected transition is the first candidate, in
declared array order, whose guard evaluates true (section 4.1 step 2). -/
def selectTransition (impl : String → C → MEvent → Bool) (m : Machine)
    (sn : StateNode) (c : C) (e : MEvent) : Option Transition :=
  (candidates m sn e.type).find? (transitionEnabled impl c e)

/-- Modelled from the spec: observable effects emitted while a transition
settles, recorded as a trace: action runs, activity starts and teardown
invocations, timer armings and cancellations, and subscriber notifications. -/
inductive Effect (C : Type) where
  | actionRun (name : String)
  | activityStart (name : String)
  | activityStop (name : String)
  | timerArm (delay : Nat)
  | timerCancel (delay : Nat)
  | notify (state : String) (ctx : C)
  deriving DecidableEq

/-- Modelled from the spec: the implementation map supplied at creation
(section 6).  An action returns the updated context together with the list of
events it sent re-entrantly, in call order; activities are observable through
the trace only, their retained teardowns being tracked by name. -/
structure Impl (C : Type) where
  guards : String → C → MEvent → Bool
  actions : String → C → MEvent → C × List MEvent

/-- Modelled from the spec: interpreter lifecycle status. -/
inductive Status where
  | notStarted
  | running
  | stopped
  deriving Repr, DecidableEq

/-- Modelled from the spec: an interpreter instance owns a current state id, a
context, the retained activity teardowns in start order, the armed timers of
the current state as (delay key, remaining milliseconds) pairs, and the FIFO
queue of deferred events (sections 3 and 5). -/
structure Service (C : Type) where
  status : Status
  state : String
  context : C
  retained : List String
  timers : List (Nat × Nat)
  queue : List MEvent

/-- Run a list of named actions in array order, threading the context;
returns the final context, the re-entrantly sent events in call order, and
the emitted action-run effects (section 4.3). -/
def runActions (impl : Impl C) (names : List String) (c : C) (e : MEvent) :
    C × List MEvent × List (Effect C) :=
  match names with
  | [] => (c, [], [])
  | n :: ns =>
    let r := impl.actions n c e
    let rest := runActions impl ns r.1 e
    (rest.1, r.2 ++ rest.2.1, Effect.actionRun n :: rest.2.2)

/-- Arm the timers of a state's `after` table: each delay key starts with its
full delay remaining (section 4.5). -/
def armTimers (sn : StateNode) : List (Nat × Nat) :=
  sn.after.map (fun p => (p.1, p.1))

/-- Modelled from the spec: perform a selected transition (section 4.1 steps
4-5 and section 2).  A target-less transition runs its actions only and
notifies.  A targeted transition (a self-transition included) stops the
retained activities in reverse start order, cancels the armed timers, runs
exit actions, transition actions and entry actions in order, starts the target
state's activities in array order, arms its timers and notifies.  Events sent
re-entrantly by actions are appended to the queue in call order. -/
def performTransition (impl : Impl C) (m : Machine) (sv : Service C)
    (e : MEvent) (t : Transition) : Service C × List (Effect C) :=
  match t.target with
  | none =>
    let acts := runActions impl t.actions sv.context e
    ({ sv with context := acts.1, queue := sv.queue ++ acts.2.1 },
      acts.2.2 ++ [Effect.notify sv.state acts.1])
  | some tgt =>
    let src := stateNode m sv.state
    let dst := stateNode m tgt
    let stopEffs := sv.retained.reverse.map (Effect.activityStop (C := C))
    let cancelEffs := sv.timers.map (fun p => Effect.timerCancel (C := C) p.1)
    let exitRun := runActions impl src.exit sv.context e
    let actRun := runActions impl t.actions exitRun.1 e
    let entryRun := runActions impl dst.entry actRun.1 e
    let startEffs := dst.activities.map (Effect.activityStart (C := C))
    let armEffs := dst.after.map (fun p => Effect.timerArm (C := C) p.1)
    ({ status := sv.status, state := tgt, context := entryRun.1,
       retained := dst.activities, timers := armTimers dst,
       queue := sv.queue ++ exitRun.2.1 ++ actRun.2.1 ++ entryRun.2.1 },
      stopEffs ++ cancelEffs ++ exitRun.2.2 ++ actRun.2.2 ++ entryRun.2.2 ++
        startEffs ++ armEffs ++ [Effect.notify tgt entryRun.1])

/-- Modelled from the spec: process one accepted event to completion: resolve
a transition and perform it; when no candidate matches, the event is a no-op
with no notification (section 4.1 step 3). -/
def processEvent (impl : Impl C) (m : Machine) (sv : Service C) (e : MEvent) :
    Service C × List (Effect C) :=
  match selectTransition impl.guards m (stateNode m sv.state) sv.context e with
  | none => (sv, [])
  | some t => performTransition impl m sv e t

/-- Modelled from the spec: drain the FIFO queue of deferred events, each
processed to completion before the next (section 5); fuel bounds the number
of drained events. -/
def drain (impl : Impl C) (m : Machine) : Nat → Service C → Service C × List (Effect C)
  | 0, sv => (sv, [])
  | fuel + 1, sv =>
    match sv.queue with
    | [] => (sv, [])
    | e :: rest =>
      let p := processEvent impl m { sv with queue := rest } e
      let q := drain impl m fuel p.1
      (q.1, p.2 ++ q.2)

/-- Modelled from the spec: an external send processes the event to
completion, then drains the events queued re-entrantly meanwhile; a send on a
stopped (or not started) instance is a no-op (sections 4.1 and 5). -/
def send (impl : Impl C) (m : Machine) (fuel : Nat) (sv : Service C)
    (e : MEvent) : Service C × List (Effect C) :=
  match sv.status with
  | Status.running =>
    let p := processEvent impl m sv e
    let q := drain impl m fuel p.1
    (q.1, p.2 ++ q.2)
  | _ => (sv, [])

/-- Modelled from the spec: the synthetic internal event fed through the
normal pipeline when a delay timer elapses (section 4.5). -/
def afterEvent (d : Nat) : MEvent :=
  { type := "machine.after", payload := d }

/-- Modelled from the spec: one elapsed millisecond.  All armed timers count
down; a timer reaching zero is consumed and its `after` transition is fed
through the normal pipeline, guard-evaluated like any other (section 4.5).
A stopped instance ignores time. -/
def tick (impl : Impl C) (m : Machine) (sv : Service C) :
    Service C × List (Effect C) :=
  match sv.status with
  | Status.running =>
    let ts := sv.timers.map (fun p => (p.1, p.2 - 1))
    match ts.find? (fun p => p.2 == 0) with
    | none => ({ sv with timers := ts }, [])
    | some fired =>
      let sv1 := { sv with timers := ts.filter (fun p => p.1 != fired.1) }
      match (stateNode m sv.state).after.lookup fired.1 with
      | none => (sv1, [])
      | some t =>
        if transitionEnabled impl.guards sv1.context (afterEvent fired.1) t
        then performTransition impl m sv1 (afterEvent fired.1) t
        else (sv1, [])
  | _ => (sv, [])

/-- Iterate `tick` a given number of milliseconds, concatenating traces. -/
def ticks (impl : Impl C) (m : Machine) : Nat → Service C → Service C × List (Effect C)
  | 0, sv => (sv, [])
  | n + 1, sv =>
    let p := tick impl m sv
    let q := ticks impl m n p.1
    (q.1, p.2 ++ q.2)

/-- Modelled from the spec: stop the interpreter: invoke every retained
teardown exactly once in reverse start order, cancel every armed timer, clear
the queue and mark the instance terminal (sections 4.1 and 5). -/
def stop (sv : Service C) : Service C × List (Effect C) :=
  match sv.status with
  | Status.running =>
    ({ sv with status := Status.stopped, retained := [], timers := [], queue := [] },
      sv.retained.reverse.map (Effect.activityStop (C := C)) ++
        sv.timers.map (fun p => Effect.timerCancel (C := C) p.1))
  | _ => (sv, [])

/-- A small synthetic machine (in the style of the spec's section 8 test
sketch) used to exercise the interpreter model on concrete inputs. -/
def demoMachine : Machine :=
  { initial := "idle",
    globalOn := [("RESET", [{ target := some "idle" }])],
    states :=
      [("idle", { onMap := [("START", [{ target := some "running", actions := ["init"] }])] }),
       ("running",
         { entry := ["onEnter"], exit := ["onExit"],
           activities := ["a1", "a2"],
           after := [(3, { target := some "done" })],
           onMap :=
             [("LOOP", [{ target := some "running" }]),
              ("FINISH", [{ cond := some (GuardExpr.gname "isReady"), target := some "done" }]),
              ("PING", [{ actions := ["noteAndSend"] }])] }),
       ("done", { entry := ["celebrate"] })] }

/-- A concrete implementation map over a natural-number context for the
synthetic machine: `isReady` holds when the context is nonzero, every action
increments the context, and `noteAndSend` re-entrantly sends two events. -/
def demoImpl : Impl Nat :=
  { guards := fun g c _ =>
      match g with
      | "isReady" => c != 0
      | _ => true,
    actions := fun n c _ =>
      match n with
      | "noteAndSend" => (c + 1, [{ type := "FINISH" }, { type := "RESET" }])
      | _ => (c + 1, []) }

/-- A concrete running instance of the synthetic machine, sitting in state
`running` with both activities retained and the delay-3 timer armed. -/
def demoService : Service Nat :=
  { status := Status.running, state := "running", context := 1,
    retained := ["a1", "a2"], timers := [(3, 3)], queue := [] }

end ZagCore

namespace TreeView

/-- A JavaScript `Set` of strings modelled as an insertion-ordered
duplicate-free list: `add` appends the element when absent. -/
def setAdd (s : List String) (a : String) : List String :=
  if a ∈ s then s else s ++ [a]

/-- JavaScript `Set.delete`: remove every occurrence of the element. -/
def setDelete (s : List String) (a : String) : List String :=
  s.filter (fun x => x ≠ a)

/-- The JavaScript `new Set(iterable)` constructor: insert in order. -/
def setOfList (l : List String) : List String :=
  l.foldl setAdd []

/-- Events sent by the tree-view connect API, from the source `connect`:
EXPANDED.SET / EXPANDED.ALL / SELECTED.SET / SELECTED.ALL, with the `value`
set payload and the `src` tag where the source supplies them. -/
inductive TreeEvent where
  | expandedSet (value : List String) (src : String)
  | expandedAll
  | selectedSet (value : List String) (src : String)
  | selectedAll
  deriving Repr, DecidableEq

/-- From the source `connect` (tree-view): `expand(value)` sends EXPANDED.ALL
when called without an argument, and otherwise sends EXPANDED.SET whose value
starts from a set built over the current `expandedValue` and adds each given
id.  The result is the list of events sent by the call. -/
def expand (expandedValue : List String) (value : Option (List String)) :
    List TreeEvent :=
  match value with
  | none => [TreeEvent.expandedAll]
  | some v => [TreeEvent.expandedSet (v.foldl setAdd (setOfList expandedValue)) "expand"]

/-- From the source `connect` (tree-view): `collapse(value)` sends
EXPANDED.SET with the empty set when called without an argument, and
otherwise sends EXPANDED.SET whose value starts from a set built over the
current `expandedValue` and deletes each given id. -/
def collapse (expandedValue : List String) (value : Option (List String)) :
    List TreeEvent :=
  match value with
  | none => [TreeEvent.expandedSet [] "collapseAll"]
  | some v => [TreeEvent.expandedSet (v.foldl setDelete (setOfList expandedValue)) "collapse"]

/-- From the source `connect` (tree-view): `select(value)` sends SELECTED.ALL
when called without an argument, and otherwise SELECTED.SET with the ids
added over the current `selectedValue`. -/
def select (selectedValue : List String) (value : Option (List String)) :
    List TreeEvent :=
  match value with
  | none => [TreeEvent.selectedAll]
  | some v => [TreeEvent.selectedSet (v.foldl setAdd (setOfList selectedValue)) "select"]

/-- From the source `connect` (tree-view): `deselect(value)` sends
SELECTED.SET with the empty set when called without an argument, and
otherwise SELECTED.SET with the ids deleted over the current
`selectedValue`. -/
def deselect (selectedValue : List String) (value : Option (List String)) :
    List TreeEvent :=
  match value with
  | none => [TreeEvent.selectedSet [] "deselectAll"]
  | some v => [TreeEvent.selectedSet (v.foldl setDelete (setOfList selectedValue)) "deselect"]

end TreeView

namespace Combobox

/-- The element ids used by the combobox connect layer. -/
structure ElementIds where
  label : String
  input : String
  listbox : String
  toggleBtn : String
  container : String
  deriving Repr, DecidableEq

/-- Modelled from the spec: combobox.dom.ts is not among the inspected
sources; element ids are uid-derived distinct strings here.  The claims below
depend only on `listbox` as an opaque id. -/
def getElementIds (uid : String) : ElementIds :=
  { label := uid ++ "-label", input := uid ++ "-input",
    listbox := uid ++ "-listbox", toggleBtn := uid ++ "-toggle-btn",
    container := uid ++ "-container" }

/-- The slice of the combobox machine context read by the connect layer's
pure prop computations (combobox.machine.ts). -/
structure ComboboxCtx where
  uid : String
  name : Option String := none
  disabled : Bool := false
  readonly : Bool := false
  autoFocus : Bool := false
  placeholder : Option String := none
  autoComplete : Bool := true
  activeId : Option String := none
  inputValue : String := ""
  navigationValue : String := ""
  deriving Repr, DecidableEq

/-- The pure data fields of the input prop bag (combobox.connect.ts). -/
structure InputProps where
  name : Option String
  disabled : Bool
  autoFocus : Bool
  readOnly : Bool
  placeholder : Option String
  id : String
  type : String
  role : String
  value : String
  ariaAutocomplete : String
  ariaControls : Option String
  ariaExpanded : Bool
  ariaActivedescendant : Option String
  deriving Repr, DecidableEq

/-- The pure data fields of the toggle-button prop bag (combobox.connect.ts). -/
structure ButtonProps where
  id : String
  ariaHaspopup : String
  type : String
  role : String
  tabIndex : Int
  ariaLabel : String
  ariaExpanded : Bool
  ariaControls : Option String
  disabled : Bool
  deriving Repr, DecidableEq

/-- The pure data fields of the listbox prop bag (combobox.connect.ts). -/
structure ListboxProps where
  id : String
  role : String
  hidden : Bool
  ariaLabelledby : String
  deriving Repr, DecidableEq

/-- The slice of the connect return value carrying the prop bags the claims
are about (combobox.connect.ts). -/
structure ComboboxConnect where
  inputValue : String
  inputProps : InputProps
  buttonProps : ButtonProps
  listboxProps : ListboxProps
  deriving Repr, DecidableEq

/-- The interpreter's `state.matches` test used by the connect layer. -/
def stateMatches (stateValue : String) (s : String) : Bool := stateValue == s

/-- From the source `connectComboboxMachine` (combobox.connect.ts): computes
the prop bags from the machine snapshot.  `expanded` is whether the state
matches "open"; `useNavigationValue` is the source's constant false. -/
def connectComboboxMachine (stateValue : String) (ctx : ComboboxCtx) :
    ComboboxConnect :=
  let ids := getElementIds ctx.uid
  let expanded := stateMatches stateValue "open"
  let useNavigationValue := false
  { inputValue := ctx.inputValue,
    inputProps :=
      { name := ctx.name, disabled := ctx.disabled, autoFocus := ctx.autoFocus,
        readOnly := ctx.readonly, placeholder := ctx.placeholder,
        id := ids.input, type := "text", role := "combobox",
        value := if useNavigationValue then ctx.navigationValue else ctx.inputValue,
        ariaAutocomplete := if ctx.autoComplete then "both" else "list",
        ariaControls := if expanded then some ids.listbox else none,
        ariaExpanded := expanded,
        ariaActivedescendant := ctx.activeId },
    buttonProps :=
      { id := ids.toggleBtn, ariaHaspopup := "true", type := "button",
        role := "button", tabIndex := -1,
        ariaLabel := if expanded then "Hide suggestions" else "Show suggestions",
        ariaExpanded := expanded,
        ariaControls := if expanded then some ids.listbox else none,
        disabled := ctx.disabled },
    listboxProps :=
      { id := ids.listbox, role := "listbox", hidden := !expanded,
        ariaLabelledby := ids.label } }

open ZagCore in
/-- The combobox machine definition (combobox.machine.ts): states `unknown`,
`open`, `focused`, `closed` with their transition tables, the machine-global
SET_COUNT handler, the `open` state's entry action and activities, and the
`closed` state's delay-0 guarded `after` transition.  Bare-string transitions
and single actions of the source are normalized to singleton lists. -/
def comboboxMachine : Machine :=
  { initial := "unknown",
    globalOn := [("SET_COUNT", [{ actions := ["setCount"] }])],
    states :=
      [("unknown",
         { onMap :=
             [("SETUP",
               [{ target := some "closed",
                  actions := ["setId", "setOwnerDocument", "setLiveRegion"] }])] }),
       ("open",
         { entry := ["announceOptionCount"],
           activities := ["scrollOptionIntoView", "trackPointerDown"],
           onMap :=
             [("ARROW_DOWN",
               [{ cond := some (guards.and ["autoComplete", "isLastOptionFocused"]),
                  actions := ["clearFocusedOption", "setEventSourceToKeyboard"] },
                { actions := ["selectNextOptionId", "setEventSourceToKeyboard"] }]),
              ("ARROW_UP",
               [{ cond := some (guards.and ["autoComplete", "isFirstOptionFocused"]),
                  actions := ["clearFocusedOption", "setEventSourceToKeyboard"] },
                { actions := ["selectPrevOptionId", "setEventSourceToKeyboard"] }]),
              ("ESCAPE", [{ target := some "closed" }]),
              ("ENTER",
               [{ cond := some (GuardExpr.gname "closeOnSelect"),
                  target := some "closed",
                  actions := ["setSelectedValue", "announceSelectedOption", "clearFocusedOption"] },
                { actions := ["setSelectedValue", "announceSelectedOption"] }]),
              ("TYPE",
               [{ cond := some (GuardExpr.gname "autoSelect"),
                  target := some "open",
                  actions := ["setInputValue", "focusFirstOption", "announceOptionCount",
                              "setEventSourceToKeyboard"] },
                { target := some "open",
                  actions := ["setInputValue", "announceOptionCount",
                              "setEventSourceToKeyboard"] }]),
              ("OPTION_POINTEROVER",
               [{ actions := ["setActiveOption", "setEventSourceToPointer"] }]),
              ("OPTION_POINTEROUT", [{ actions := ["clearFocusedOption"] }]),
              ("OPTION_CLICK",
               [{ cond := some (GuardExpr.gname "closeOnSelect"),
                  target := some "closed",
                  actions := ["setSelectedValue", "announceSelectedOption", "focusInput"] },
                { actions := ["setSelectedValue", "announceSelectedOption", "focusInput"] }]),
              ("INPUT_BLUR",
               [{ cond := some (guards.and ["allowCustomValue", "closeOnBlur"]),
                  target := some "closed" },
                { cond := some (GuardExpr.gname "closeOnBlur"),
                  target := some "closed" }]),
              ("BUTTON_CLICK", [{ target := some "closed", actions := ["focusInput"] }])] }),
       ("focused",
         { onMap :=
             [("INPUT_BLUR", [{ target := some "closed" }]),
              ("INPUT_CLICK",
               [{ cond := some (GuardExpr.gname "openOnClick"), target := some "open" }]),
              ("ARROW_DOWN",
               [{ target := some "open",
                  actions := ["focusFirstOption", "setEventSourceToKeyboard"] }]),
              ("ARROW_UP",
               [{ target := some "open",
                  actions := ["selectLastOptionId", "setEventSourceToKeyboard"] }]),
              ("TYPE",
               [{ cond := some (GuardExpr.gname "autoSelect"),
                  target := some "open",
                  actions := ["setInputValue", "focusFirstOption", "announceOptionCount",
                              "setEventSourceToKeyboard"] },
                { target := some "open",
                  actions := ["setInputValue", "announceOptionCount",
                              "setEventSourceToKeyboard"] }]),
              ("BUTTON_CLICK", [{ target := some "open", actions := ["focusInput"] }]),
              ("ESCAPE", [{ actions := ["clearInputValue"] }])] }),
       ("closed",
         { entry := ["clearFocusedOption", "clearEventSource"],
           after :=
             [(0, { cond := some (GuardExpr.gname "isInputFocused"),
                    target := some "focused" })],
           onMap :=
             [("INPUT_FOCUS", [{ target := some "focused" }]),
              ("BUTTON_CLICK", [{ target := some "open", actions := ["focusInput"] }])] })] }

end Combobox

namespace ZagCore

variable {C : Type}

/-- The list-level conjunction evaluator agrees with List.all. -/
theorem evalGuardAll_eq_all (impl : String → C → MEvent → Bool) (c : C)
    (e : MEvent) (gs : List GuardExpr) :
    evalGuardAll impl c e gs = gs.all (evalGuard impl c e) := by
  induction gs with
  | nil => rfl
  | cons g gs ih => simp [evalGuardAll, List.all_cons, ih]

/-- The list-level disjunction evaluator agrees with List.any. -/
theorem evalGuardAny_eq_any (impl : String → C → MEvent → Bool) (c : C)
    (e : MEvent) (gs : List GuardExpr) :
    evalGuardAny impl c e gs = gs.any (evalGuard impl c e) := by
  induction gs with
  | nil => rfl
  | cons g gs ih => simp [evalGuardAny, List.any_cons, ih]

/-- C8: the guard combinators satisfy the standard boolean laws over any
guards and any (context, event): and is conjunction over the named guards, or
is disjunction, not is negation; in particular and(true,true)=true,
and(true,false)=false, not(true)=false, or(false,false)=false, shown with a
literal implementation map sending "t" to true and every other name to
false. -/
theorem guard_combinators_boolean_laws :
    (∀ (impl : String → C → MEvent → Bool) (c : C) (e : MEvent) (gs : List String),
        evalGuard impl c e (guards.and gs) = gs.all (fun g => impl g c e))
    ∧ (∀ (impl : String → C → MEvent → Bool) (c : C) (e : MEvent) (gs : List String),
        evalGuard impl c e (guards.or gs) = gs.any (fun g => impl g c e))
    ∧ (∀ (impl : String → C → MEvent → Bool) (c : C) (e : MEvent) (g : String),
        evalGuard impl c e (guards.not g) = !(impl g c e))
    ∧ (∀ (c : C) (e : MEvent),
        evalGuard (fun g _ _ => g == "t") c e (guards.and ["t", "t"]) = true
        ∧ evalGuard (fun g _ _ => g == "t") c e (guards.and ["t", "f"]) = false
        ∧ evalGuard (fun g _ _ => g == "t") c e (guards.not "t") = false
        ∧ evalGuard (fun g _ _ => g == "t") c e (guards.or ["f", "f"]) = false) := by
  have hand : ∀ (impl : String → C → MEvent → Bool) (c : C) (e : MEvent)
      (gs : List String),
      evalGuard impl c e (guards.and gs) = gs.all (fun g => impl g c e) := by
    intro impl c e gs
    have h1 : evalGuard impl c e (guards.and gs)
        = evalGuardAll impl c e (gs.map GuardExpr.gname) := by
      simp [guards.and, evalGuard]
    rw [h1]
    induction gs with
    | nil => rfl
    | cons g gs ih => simp [evalGuardAll, evalGuard, List.all_cons, ih]
  have hor : ∀ (impl : String → C → MEvent → Bool) (c : C) (e : MEvent)
      (gs : List String),
      evalGuard impl c e (guards.or gs) = gs.any (fun g => impl g c e) := by
    intro impl c e gs
    have h1 : evalGuard impl c e (guards.or gs)
        = evalGuardAny impl c e (gs.map GuardExpr.gname) := by
      simp [guards.or, evalGuard]
    rw [h1]
    induction gs with
    | nil => rfl
    | cons g gs ih => simp [evalGuardAny, evalGuard, List.any_cons, ih]
  have hnot : ∀ (impl : String → C → MEvent → Bool) (c : C) (e : MEvent)
      (g : String),
      evalGuard impl c e (guards.not g) = !(impl g c e) := by
    intro impl c e g
    simp [guards.not, evalGuard]
  refine ⟨hand, hor, hnot, fun c e => ⟨?_, ?_, ?_, ?_⟩⟩
  · rw [hand]; rfl
  · rw [hand]; rfl
  · rw [hnot]; rfl
  · rw [hor]; rfl

/-- C1: transition selection for send(event) is deterministic and ordered:
candidate transitions come from the current state's on map with the global
map consulted exactly when the event type is absent there; a transition with
no guard is always enabled; and the selected transition is characterized as
the first candidate in declared array order whose guard evaluates true
against (context, event). -/
theorem transition_selection_order :
    (∀ (m : Machine) (sn : StateNode) (etype : String),
        candidates m sn etype
          = (sn.onMap.lookup etype).getD ((m.globalOn.lookup etype).getD []))
    ∧ (∀ (t : Transition), t.cond = none →
        ∀ (impl : String → C → MEvent → Bool) (c : C) (e : MEvent),
          transitionEnabled impl c e t = true)
    ∧ (∀ (impl : String → C → MEvent → Bool) (m : Machine) (sn : StateNode)
        (c : C) (e : MEvent) (t : Transition),
        selectTransition impl m sn c e = some t ↔
          transitionEnabled impl c e t = true
          ∧ ∃ pre post, candidates m sn e.type = pre ++ t :: post
              ∧ ∀ u ∈ pre, transitionEnabled impl c e u = false) := by
  refine ⟨?_, ?_, ?_⟩
  · intro m sn etype
    unfold candidates
    cases sn.onMap.lookup etype <;> rfl
  · intro t ht impl c e
    simp [transitionEnabled, ht]
  · intro impl m sn c e t
    unfold selectTransition
    rw [List.find?_eq_some]
    simp only [Bool.not_eq_true']

/-- Witness for C1: in the combobox machine's open state, with autoComplete
false, ARROW_DOWN skips the guarded first candidate and selects the second,
unguarded one; and the unguarded ESCAPE transition is always enabled. -/
theorem transition_selection_order_witness :
    transitionEnabled (fun g (_ : Nat) _ => g == "closeOnBlur") 0
        { type := "ESCAPE" } { target := some "closed" } = true
    ∧ selectTransition (fun g (_ : Nat) _ => g == "closeOnBlur")
        Combobox.comboboxMachine (stateNode Combobox.comboboxMachine "open") 0
        { type := "ARROW_DOWN" }
      = some { actions := ["selectNextOptionId", "setEventSourceToKeyboard"] } := by
  constructor
  · exact (transition_selection_order (C := Nat)).2.1 { target := some "closed" } rfl
      (fun g _ _ => g == "closeOnBlur") 0 { type := "ESCAPE" }
  · refine ((transition_selection_order (C := Nat)).2.2 _ _ _ _ _ _).mpr ⟨by decide, ?_⟩
    refine ⟨[{ cond := some (guards.and ["autoComplete", "isLastOptionFocused"]),
               actions := ["clearFocusedOption", "setEventSourceToKeyboard"] }], [], rfl, ?_⟩
    intro u hu
    rw [List.mem_singleton] at hu
    subst hu
    decide

/-- C2: an event for which no candidate transition's guard evaluates true
(including an event type absent from both the state-local and the global on
map) is a no-op: state and context are unchanged, nothing is queued, and no
subscriber notification is emitted. -/
theorem unmatched_event_noop (impl : Impl C) (m : Machine) (sv : Service C)
    (e : MEvent)
    (h : ∀ t ∈ candidates m (stateNode m sv.state) e.type,
        transitionEnabled impl.guards sv.context e t = false) :
    processEvent impl m sv e = (sv, [])
    ∧ (sv.status = Status.running → sv.queue = [] → ∀ fuel,
        send impl m fuel sv e = (sv, []))
    ∧ (∀ s c, Effect.notify s c ∉ (processEvent impl m sv e).2) := by
  have hsel : selectTransition impl.guards m (stateNode m sv.state) sv.context e
      = none := by
    unfold selectTransition
    rw [List.find?_eq_none]
    intro t ht
    simp [h t ht]
  have hproc : processEvent impl m sv e = (sv, []) := by
    simp [processEvent, hsel]
  refine ⟨hproc, ?_, ?_⟩
  · intro hst hq fuel
    cases fuel with
    | zero => simp [send, hst, hproc, drain]
    | succ n => simp [send, hst, hproc, drain, hq]
  · intro s c
    simp [hproc]

/-- Witness for C2: sending an event of unknown type NOPE to the running
synthetic machine changes nothing and emits no effects. -/
theorem unmatched_event_noop_witness :
    processEvent demoImpl demoMachine demoService { type := "NOPE" }
      = (demoService, []) :=
  (unmatched_event_noop demoImpl demoMachine demoService { type := "NOPE" }
    (by decide)).1

/-- The effect trace of an action list is exactly one action-run effect per
name, in array order, independent of the context and the action results. -/
theorem runActions_effects (impl : Impl C) (names : List String) (c : C)
    (e : MEvent) :
    (runActions impl names c e).2.2 = names.map Effect.actionRun := by
  induction names generalizing c with
  | nil => rfl
  | cons n ns ih => simp [runActions, ih]

/-- A mapped list contains no occurrence of a value outside the map's image. -/
theorem count_in_map_ne {α β : Type} [DecidableEq β] (f : α → β) (y : β)
    (hfy : ∀ x, f x ≠ y) (l : List α) : (l.map f).count y = 0 := by
  rw [List.count_eq_zero]
  intro hy
  rcases List.mem_map.1 hy with ⟨x, _, hx⟩
  exact hfy x hx

/-- A targeted transition moves the service to the target state, retains
exactly the target state's activities, arms exactly the target state's
timers and preserves the lifecycle status. -/
theorem performTransition_service (impl : Impl C) (m : Machine) (sv : Service C)
    (e : MEvent) (t : Transition) (tgt : String) (h : t.target = some tgt) :
    (performTransition impl m sv e t).1.state = tgt
    ∧ (performTransition impl m sv e t).1.retained = (stateNode m tgt).activities
    ∧ (performTransition impl m sv e t).1.timers = armTimers (stateNode m tgt)
    ∧ (performTransition impl m sv e t).1.status = sv.status := by
  simp [performTransition, h]

/-- The full effect trace of a targeted transition: teardowns of the retained
activities in reverse start order, cancellations of the armed timers, the
exit, transition and entry actions in order, the target state's activity
starts in array order, its timer armings, and the final notification. -/
theorem performTransition_trace (impl : Impl C) (m : Machine) (sv : Service C)
    (e : MEvent) (t : Transition) (tgt : String) (h : t.target = some tgt) :
    (performTransition impl m sv e t).2
      = sv.retained.reverse.map Effect.activityStop
        ++ (sv.timers.map (fun p => Effect.timerCancel p.1)
        ++ (((stateNode m sv.state).exit
              ++ (t.actions ++ (stateNode m tgt).entry)).map Effect.actionRun
        ++ ((stateNode m tgt).activities.map Effect.activityStart
        ++ ((stateNode m tgt).after.map (fun p => Effect.timerArm p.1)
        ++ [Effect.notify tgt (performTransition impl m sv e t).1.context])))) := by
  simp [performTransition, h, runActions_effects, List.map_append, List.append_assoc]

/-- C3: a targeted transition starts each of the target state's activities
exactly once, contiguously and in declared array order, and invokes each
retained teardown exactly once, contiguously, in reverse order of start
(LIFO), with the whole teardown block preceding the start block; afterwards
the retained list is exactly the target state's activity list, so the
exactly-once start/stop pairing also holds across a self-transition that
re-enters the state. -/
theorem activities_exactly_once [DecidableEq C] (impl : Impl C) (m : Machine)
    (sv : Service C) (e : MEvent) (t : Transition) (tgt : String)
    (h : t.target = some tgt) :
    (∃ rest, (performTransition impl m sv e t).2
        = sv.retained.reverse.map Effect.activityStop ++ rest
        ∧ (∀ a, rest.count (Effect.activityStop a) = 0)
        ∧ ∃ pre post, rest = pre
            ++ ((stateNode m tgt).activities.map Effect.activityStart ++ post)
            ∧ (∀ a, pre.count (Effect.activityStart a) = 0)
            ∧ (∀ a, post.count (Effect.activityStart a) = 0))
    ∧ (∀ a, (performTransition impl m sv e t).2.count (Effect.activityStart a)
        = (stateNode m tgt).activities.count a)
    ∧ (∀ a, (performTransition impl m sv e t).2.count (Effect.activityStop a)
        = sv.retained.count a)
    ∧ (performTransition impl m sv e t).1.retained
        = (stateNode m tgt).activities := by
  have htr := performTransition_trace impl m sv e t tgt h
  have hstartinj : Function.Injective (Effect.activityStart (C := C)) := by
    intro a b hab
    cases hab
    rfl
  have hstopinj : Function.Injective (Effect.activityStop (C := C)) := by
    intro a b hab
    cases hab
    rfl
  refine ⟨?_, ?_, ?_, (performTransition_service impl m sv e t tgt h).2.1⟩
  · refine ⟨_, htr, ?_, ?_⟩
    · intro a
      simp only [List.count_append]
      rw [count_in_map_ne (fun p : Nat × Nat => Effect.timerCancel (C := C) p.1)
            (Effect.activityStop a) (fun x h => Effect.noConfusion h),
        count_in_map_ne (Effect.actionRun (C := C)) (Effect.activityStop a)
            (fun x h => Effect.noConfusion h),
        count_in_map_ne (Effect.activityStart (C := C)) (Effect.activityStop a)
            (fun x h => Effect.noConfusion h),
        count_in_map_ne (fun p : Nat × Transition => Effect.timerArm (C := C) p.1)
            (Effect.activityStop a) (fun x h => Effect.noConfusion h)]
      simp [List.count_cons]
    · refine ⟨sv.timers.map (fun p => Effect.timerCancel p.1)
          ++ ((stateNode m sv.state).exit
                ++ (t.actions ++ (stateNode m tgt).entry)).map Effect.actionRun,
        (stateNode m tgt).after.map (fun p => Effect.timerArm p.1)
          ++ [Effect.notify tgt (performTransition impl m sv e t).1.context],
        by simp [List.append_assoc], ?_, ?_⟩
      · intro a
        simp only [List.count_append]
        rw [count_in_map_ne (fun p : Nat × Nat => Effect.timerCancel (C := C) p.1)
              (Effect.activityStart a) (fun x h => Effect.noConfusion h),
          count_in_map_ne (Effect.actionRun (C := C)) (Effect.activityStart a)
              (fun x h => Effect.noConfusion h)]
      · intro a
        simp only [List.count_append]
        rw [count_in_map_ne (fun p : Nat × Transition => Effect.timerArm (C := C) p.1)
              (Effect.activityStart a) (fun x h => Effect.noConfusion h)]
        simp [List.count_cons]
  · intro a
    rw [htr]
    simp only [List.count_append]
    rw [List.count_map_of_injective _ _ hstartinj,
      count_in_map_ne (Effect.activityStop (C := C)) (Effect.activityStart a)
          (fun x h => Effect.noConfusion h),
      count_in_map_ne (fun p : Nat × Nat => Effect.timerCancel (C := C) p.1)
          (Effect.activityStart a) (fun x h => Effect.noConfusion h),
      count_in_map_ne (Effect.actionRun (C := C)) (Effect.activityStart a)
          (fun x h => Effect.noConfusion h),
      count_in_map_ne (fun p : Nat × Transition => Effect.timerArm (C := C) p.1)
          (Effect.activityStart a) (fun x h => Effect.noConfusion h)]
    simp [List.count_cons]
  · intro a
    rw [htr]
    simp only [List.count_append]
    rw [List.count_map_of_injective _ _ hstopinj,
      count_in_map_ne (fun p : Nat × Nat => Effect.timerCancel (C := C) p.1)
          (Effect.activityStop a) (fun x h => Effect.noConfusion h),
      count_in_map_ne (Effect.actionRun (C := C)) (Effect.activityStop a)
          (fun x h => Effect.noConfusion h),
      count_in_map_ne (Effect.activityStart (C := C)) (Effect.activityStop a)
          (fun x h => Effect.noConfusion h),
      count_in_map_ne (fun p : Nat × Transition => Effect.timerArm (C := C) p.1)
          (Effect.activityStop a) (fun x h => Effect.noConfusion h)]
    simp [List.count_cons, List.count_reverse]

/-- Witness for C3: the LOOP self-transition of the synthetic machine leaves
both activities retained and starts and stops each exactly once. -/
theorem activities_exactly_once_witness :
    (performTransition demoImpl demoMachine demoService { type := "LOOP" }
        { target := some "running" }).1.retained = ["a1", "a2"]
    ∧ (performTransition demoImpl demoMachine demoService { type := "LOOP" }
        { target := some "running" }).2.count (Effect.activityStart "a1") = 1
    ∧ (performTransition demoImpl demoMachine demoService { type := "LOOP" }
        { target := some "running" }).2.count (Effect.activityStop "a2") = 1 := by
  have h := activities_exactly_once demoImpl demoMachine demoService
    { type := "LOOP" } { target := some "running" } "running" rfl
  refine ⟨?_, ?_, ?_⟩
  · rw [h.2.2.2]
    decide
  · rw [h.2.1 "a1"]
    decide
  · rw [h.2.2.1 "a2"]
    decide

/-- C4: a transition whose target equals the current state id performs the
full exit-and-re-enter cycle: all retained teardowns are invoked and all
timers cancelled, then the exit, transition and entry actions run, the
state's activities are all started again and its timers re-armed, and the
state id is unchanged; the retained list afterwards is the state's full
activity list, so no activity is left running across the self-transition. -/
theorem self_transition_full_cycle (impl : Impl C) (m : Machine)
    (sv : Service C) (e : MEvent) (t : Transition)
    (h : t.target = some sv.state) :
    (performTransition impl m sv e t).1.state = sv.state
    ∧ (performTransition impl m sv e t).2
        = sv.retained.reverse.map Effect.activityStop
          ++ (sv.timers.map (fun p => Effect.timerCancel p.1)
          ++ (((stateNode m sv.state).exit
                ++ (t.actions ++ (stateNode m sv.state).entry)).map Effect.actionRun
          ++ ((stateNode m sv.state).activities.map Effect.activityStart
          ++ ((stateNode m sv.state).after.map (fun p => Effect.timerArm p.1)
          ++ [Effect.notify sv.state
                (performTransition impl m sv e t).1.context]))))
    ∧ (performTransition impl m sv e t).1.retained
        = (stateNode m sv.state).activities
    ∧ (performTransition impl m sv e t).1.timers
        = armTimers (stateNode m sv.state) :=
  ⟨(performTransition_service impl m sv e t sv.state h).1,
    performTransition_trace impl m sv e t sv.state h,
    (performTransition_service impl m sv e t sv.state h).2.1,
    (performTransition_service impl m sv e t sv.state h).2.2.1⟩

/-- While more than one millisecond remains on the single armed timer, a tick
only counts it down: no effect is emitted and nothing but the remaining time
changes. -/
theorem tick_counts_down (impl : Impl C) (m : Machine) (sv : Service C)
    (d r : Nat) (hst : sv.status = Status.running) (ht : sv.timers = [(d, r)])
    (hr : 2 ≤ r) :
    tick impl m sv = ({ sv with timers := [(d, r - 1)] }, []) := by
  have hne : ((r - 1) == 0) = false := by
    simp only [beq_eq_false_iff_ne, ne_eq]
    omega
  simp [tick, hst, ht, List.find?, hne]

/-- Iterating ticks while time remains: after n < r milliseconds in the
state, the timer shows r - n remaining, nothing fired and no effect was
emitted. -/
theorem ticks_no_fire (impl : Impl C) (m : Machine) :
    ∀ (n : Nat) (sv : Service C) (d r : Nat), sv.status = Status.running →
      sv.timers = [(d, r)] → n < r →
      ticks impl m n sv = ({ sv with timers := [(d, r - n)] }, []) := by
  intro n
  induction n with
  | zero =>
    intro sv d r hst ht _
    cases sv
    simp only at ht
    simp [ticks, ht]
  | succ k ih =>
    intro sv d r hst ht hk
    have h1 := tick_counts_down impl m sv d r hst ht (by omega)
    have h3 := ih { sv with timers := [(d, r - 1)] } d (r - 1) hst (by simp)
      (by omega)
    simp only [ticks, h1, h3]
    have h4 : r - 1 - k = r - (k + 1) := by omega
    simp [h4]

/-- A tick that exhausts the single armed timer consumes it and feeds the
corresponding enabled after-transition through the normal pipeline. -/
theorem tick_fires (impl : Impl C) (m : Machine) (sv : Service C) (d : Nat)
    (tr : Transition) (hst : sv.status = Status.running)
    (ht : sv.timers = [(d, 1)])
    (hl : (stateNode m sv.state).after.lookup d = some tr)
    (hg : transitionEnabled impl.guards sv.context (afterEvent d) tr = true) :
    tick impl m sv
      = performTransition impl m { sv with timers := [] } (afterEvent d) tr := by
  simp [tick, hst, ht, List.find?, List.filter, hl, hg]

/-- Ticks split along addition: the first a milliseconds elapse, then the
next b, with the traces concatenated in order. -/
theorem ticks_split (impl : Impl C) (m : Machine) :
    ∀ (a b : Nat) (sv : Service C),
      ticks impl m (a + b) sv
        = ((ticks impl m b (ticks impl m a sv).1).1,
           (ticks impl m a sv).2 ++ (ticks impl m b (ticks impl m a sv).1).2) := by
  intro a
  induction a with
  | zero =>
    intro b sv
    simp [ticks]
  | succ k ih =>
    intro b sv
    have heq : k + 1 + b = (k + b) + 1 := by omega
    rw [heq]
    simp only [ticks]
    rw [ih b (tick impl m sv).1]
    simp [List.append_assoc]

/-- C5: a state's delayed transition with delay D fires exactly when the
machine remains continuously in the state for D milliseconds after arming:
while fewer than D milliseconds have elapsed nothing fires and no effect is
emitted, at the D-th millisecond the armed timer is consumed and its enabled
after-transition is fed through the normal pipeline; and any targeted
transition out of the state (self-transitions included) discards the armed
timers, emitting a cancellation for each, and arms the target state's timers
afresh, so the old arming can never fire. -/
theorem delayed_transition_timing (impl : Impl C) (m : Machine)
    (sv : Service C) (d r : Nat) (tr : Transition)
    (hst : sv.status = Status.running) (ht : sv.timers = [(d, r)]) (hr : 1 ≤ r)
    (hl : (stateNode m sv.state).after.lookup d = some tr)
    (hg : transitionEnabled impl.guards sv.context (afterEvent d) tr = true) :
    (∀ n, n < r → ticks impl m n sv = ({ sv with timers := [(d, r - n)] }, []))
    ∧ ticks impl m r sv
        = performTransition impl m { sv with timers := [] } (afterEvent d) tr
    ∧ (∀ (e : MEvent) (t : Transition) (tgt : String), t.target = some tgt →
        (performTransition impl m sv e t).1.timers = armTimers (stateNode m tgt)
        ∧ ∀ p ∈ sv.timers,
            Effect.timerCancel p.1 ∈ (performTransition impl m sv e t).2) := by
  refine ⟨fun n hn => ticks_no_fire impl m n sv d r hst ht hn, ?_, ?_⟩
  · have h1 : r = (r - 1) + 1 := by omega
    rw [h1, ticks_split]
    rw [ticks_no_fire impl m (r - 1) sv d r hst ht (by omega)]
    have h2 : r - (r - 1) = 1 := by omega
    simp only [h2]
    rw [show ((1 : Nat) = 0 + 1) from rfl]
    simp only [ticks]
    rw [tick_fires impl m { sv with timers := [(d, 1)] } d tr hst rfl hl hg]
    simp
  · intro e t tgt httgt
    refine ⟨(performTransition_service impl m sv e t tgt httgt).2.2.1, ?_⟩
    intro p hp
    rw [performTransition_trace impl m sv e t tgt httgt]
    simp only [List.mem_append, List.mem_map]
    exact Or.inr (Or.inl ⟨p, hp, rfl⟩)

/-- Witness for C5: the synthetic machine's delay-3 timer, armed in state
running, fires exactly after three ticks and performs the transition to
done. -/
theorem delayed_transition_timing_witness :
    ticks demoImpl demoMachine 2 demoService
      = ({ demoService with timers := [(3, 1)] }, [])
    ∧ ticks demoImpl demoMachine 3 demoService
      = performTransition demoImpl demoMachine { demoService with timers := [] }
          (afterEvent 3) { target := some "done" } :=
  ⟨(delayed_transition_timing demoImpl demoMachine demoService 3 3
      { target := some "done" } rfl rfl (by omega) rfl rfl).1 2 (by omega),
    (delayed_transition_timing demoImpl demoMachine demoService 3 3
      { target := some "done" } rfl rfl (by omega) rfl rfl).2.1⟩

/-- Witness for C4: the LOOP self-transition keeps the synthetic machine in
state running while emitting the full stop/exit/entry/start cycle. -/
theorem self_transition_full_cycle_witness :
    (performTransition demoImpl demoMachine demoService { type := "LOOP" }
        { target := some "running" }).1.state = demoService.state
    ∧ (performTransition demoImpl demoMachine demoService { type := "LOOP" }
        { target := some "running" }).1.retained
      = (stateNode demoMachine demoService.state).activities :=
  ⟨(self_transition_full_cycle demoImpl demoMachine demoService
      { type := "LOOP" } { target := some "running" } rfl).1,
    (self_transition_full_cycle demoImpl demoMachine demoService
      { type := "LOOP" } { target := some "running" } rfl).2.2.1⟩

/-- C6: run-to-completion with a FIFO queue: events sent re-entrantly by
actions are appended behind the existing queue in the order the sends were
made; a send processes its own transition to completion and only then drains
the queue; the drain takes the head event first and finishes its whole
effect block before the next queued event contributes any effect, so no two
transitions interleave; and every transition's effect trace ends with its
notification, which therefore precedes every effect of the queued events. -/
theorem reentrant_sends_fifo (impl : Impl C) (m : Machine) (sv : Service C)
    (e : MEvent) (fuel : Nat) :
    (∀ t : Transition, (performTransition impl m sv e t).1.queue
        = sv.queue ++ (performTransition impl m { sv with queue := [] } e t).1.queue)
    ∧ (sv.status = Status.running →
        send impl m fuel sv e
          = ((drain impl m fuel (processEvent impl m sv e).1).1,
             (processEvent impl m sv e).2
               ++ (drain impl m fuel (processEvent impl m sv e).1).2))
    ∧ (∀ (sv2 : Service C) (e2 : MEvent) (rest : List MEvent),
        sv2.queue = e2 :: rest →
        drain impl m (fuel + 1) sv2
          = ((drain impl m fuel
                (processEvent impl m { sv2 with queue := rest } e2).1).1,
             (processEvent impl m { sv2 with queue := rest } e2).2
               ++ (drain impl m fuel
                    (processEvent impl m { sv2 with queue := rest } e2).1).2))
    ∧ (∀ (t : Transition) (tgt : String), t.target = some tgt →
        ∃ trace c2, (performTransition impl m sv e t).2
            = trace ++ [Effect.notify tgt c2])
    ∧ (∀ t : Transition, t.target = none →
        ∃ trace c2, (performTransition impl m sv e t).2
            = trace ++ [Effect.notify sv.state c2]) := by
  refine ⟨?_, ?_, ?_, ?_, ?_⟩
  · intro t
    cases httgt : t.target with
    | none => simp [performTransition, httgt]
    | some tgt => simp [performTransition, httgt, List.append_assoc]
  · intro hst
    simp [send, hst]
  · intro sv2 e2 rest hq
    cases sv2
    simp only at hq
    subst hq
    simp [drain]
  · intro t tgt httgt
    refine ⟨sv.retained.reverse.map Effect.activityStop
        ++ (sv.timers.map (fun p => Effect.timerCancel p.1)
        ++ (((stateNode m sv.state).exit
              ++ (t.actions ++ (stateNode m tgt).entry)).map Effect.actionRun
        ++ ((stateNode m tgt).activities.map Effect.activityStart
        ++ (stateNode m tgt).after.map (fun p => Effect.timerArm p.1)))),
      (performTransition impl m sv e t).1.context, ?_⟩
    rw [performTransition_trace impl m sv e t tgt httgt]
    simp [List.append_assoc]
  · intro t httgt
    exact ⟨(runActions impl t.actions sv.context e).2.2,
      (runActions impl t.actions sv.context e).1,
      by simp [performTransition, httgt]⟩

/-- Witness for C6: sending PING to the running synthetic machine settles the
PING transition (whose action re-entrantly sends FINISH then RESET) before
the queued events, in call order. -/
theorem reentrant_sends_fifo_witness :
    send demoImpl demoMachine 2 demoService { type := "PING" }
      = ((drain demoImpl demoMachine 2
            (processEvent demoImpl demoMachine demoService { type := "PING" }).1).1,
         (processEvent demoImpl demoMachine demoService { type := "PING" }).2
           ++ (drain demoImpl demoMachine 2
                (processEvent demoImpl demoMachine demoService
                  { type := "PING" }).1).2)
    ∧ (processEvent demoImpl demoMachine demoService { type := "PING" }).1.queue
      = [{ type := "FINISH" }, { type := "RESET" }] := by
  refine ⟨(reentrant_sends_fifo demoImpl demoMachine demoService
      { type := "PING" } 2).2.1 rfl, ?_⟩
  have h := (reentrant_sends_fifo demoImpl demoMachine demoService
      { type := "PING" } 2).1 { actions := ["noteAndSend"] }
  rw [show processEvent demoImpl demoMachine demoService { type := "PING" }
      = performTransition demoImpl demoMachine demoService { type := "PING" }
          { actions := ["noteAndSend"] } from rfl]
  rw [h]
  rfl

/-- A tick on a stopped instance does nothing. -/
theorem tick_stopped (impl : Impl C) (m : Machine) (sv : Service C)
    (h : sv.status = Status.stopped) : tick impl m sv = (sv, []) := by
  simp [tick, h]

/-- Time never affects a stopped instance: no timer ever fires again. -/
theorem ticks_stopped (impl : Impl C) (m : Machine) (sv : Service C)
    (h : sv.status = Status.stopped) :
    ∀ n, ticks impl m n sv = (sv, []) := by
  intro n
  induction n with
  | zero => rfl
  | succ k ih => simp [ticks, tick_stopped impl m sv h, ih]

/-- C7: stop invokes every retained teardown exactly once in reverse start
order and cancels every armed timer before returning, marks the instance
terminal and leaves state and context untouched; afterwards every send is a
no-op that raises no error, changes nothing and emits no notification, and
no tick ever fires a timer again. -/
theorem stop_terminal_noop (impl : Impl C) (m : Machine) (sv : Service C)
    (hst : sv.status = Status.running) :
    (stop sv).2
        = sv.retained.reverse.map Effect.activityStop
          ++ sv.timers.map (fun p => Effect.timerCancel p.1)
    ∧ (stop sv).1.status = Status.stopped
    ∧ (stop sv).1.retained = []
    ∧ (stop sv).1.timers = []
    ∧ (stop sv).1.state = sv.state
    ∧ (stop sv).1.context = sv.context
    ∧ (∀ (e : MEvent) (fuel : Nat),
        send impl m fuel (stop sv).1 e = ((stop sv).1, []))
    ∧ (∀ n, ticks impl m n (stop sv).1 = ((stop sv).1, [])) := by
  have hs : (stop sv).1.status = Status.stopped := by simp [stop, hst]
  refine ⟨by simp [stop, hst], hs, by simp [stop, hst], by simp [stop, hst],
    by simp [stop, hst], by simp [stop, hst], ?_, ticks_stopped impl m _ hs⟩
  intro e fuel
  have : send impl m fuel (stop sv).1 e = ((stop sv).1, []) := by
    unfold send
    rw [hs]
  exact this

/-- Witness for C7: stopping the running synthetic machine tears down a2 then
a1, cancels the armed delay-3 timer, and a subsequent send is a no-op. -/
theorem stop_terminal_noop_witness :
    (stop demoService).2
      = [Effect.activityStop "a2", Effect.activityStop "a1", Effect.timerCancel 3]
    ∧ send demoImpl demoMachine 5 (stop demoService).1 { type := "LOOP" }
      = ((stop demoService).1, []) := by
  have h := stop_terminal_noop demoImpl demoMachine demoService rfl
  exact ⟨by rw [h.1]; rfl, h.2.2.2.2.2.2.1 { type := "LOOP" } 5⟩

end ZagCore

namespace TreeView

/-- Adding an element to a modelled set: membership grows by exactly that
element. -/
theorem mem_setAdd (s : List String) (x a : String) :
    a ∈ setAdd s x ↔ a ∈ s ∨ a = x := by
  unfold setAdd
  by_cases hx : x ∈ s
  · simp only [if_pos hx]
    constructor
    · exact Or.inl
    · rintro (h | rfl)
      · exact h
      · exact hx
  · simp [if_neg hx, List.mem_append]

/-- Folding set-insertion over a list realizes union membership. -/
theorem mem_foldl_setAdd (v : List String) :
    ∀ (s : List String) (a : String), a ∈ v.foldl setAdd s ↔ a ∈ s ∨ a ∈ v := by
  induction v with
  | nil =>
    intro s a
    simp
  | cons x xs ih =>
    intro s a
    simp only [List.foldl_cons]
    rw [ih, mem_setAdd]
    simp only [List.mem_cons]
    tauto

/-- Deleting an element from a modelled set: membership loses exactly that
element. -/
theorem mem_setDelete (s : List String) (x a : String) :
    a ∈ setDelete s x ↔ a ∈ s ∧ a ≠ x := by
  simp [setDelete, List.mem_filter]

/-- Folding set-deletion over a list realizes difference membership. -/
theorem mem_foldl_setDelete (v : List String) :
    ∀ (s : List String) (a : String),
      a ∈ v.foldl setDelete s ↔ a ∈ s ∧ a ∉ v := by
  induction v with
  | nil =>
    intro s a
    simp
  | cons x xs ih =>
    intro s a
    simp only [List.foldl_cons]
    rw [ih, mem_setDelete]
    simp only [List.mem_cons]
    tauto

/-- The modelled Set constructor preserves membership. -/
theorem mem_setOfList (l : List String) (a : String) :
    a ∈ setOfList l ↔ a ∈ l := by
  simp [setOfList, mem_foldl_setAdd]

/-- C9: expand with a list argument sends exactly one EXPANDED.SET event
whose value is the set union of the current expandedValue and the given
list, and expand with no argument sends EXPANDED.ALL; collapse with a list
argument sends exactly one EXPANDED.SET event whose value is the set
difference of the current expandedValue minus the given list, and collapse
with no argument sends EXPANDED.SET with the empty set.  The functions are
pure: they read the snapshot's expandedValue and only emit events. -/
theorem treeview_expand_collapse_events :
    (∀ (ev v : List String), ∃ s,
        expand ev (some v) = [TreeEvent.expandedSet s "expand"]
        ∧ ∀ a, a ∈ s ↔ a ∈ ev ∨ a ∈ v)
    ∧ (∀ ev : List String, expand ev none = [TreeEvent.expandedAll])
    ∧ (∀ (ev v : List String), ∃ s,
        collapse ev (some v) = [TreeEvent.expandedSet s "collapse"]
        ∧ ∀ a, a ∈ s ↔ a ∈ ev ∧ a ∉ v)
    ∧ (∀ ev : List String, collapse ev none
        = [TreeEvent.expandedSet [] "collapseAll"]) := by
  refine ⟨fun ev v => ⟨_, rfl, fun a => ?_⟩, fun ev => rfl,
    fun ev v => ⟨_, rfl, fun a => ?_⟩, fun ev => rfl⟩
  · rw [mem_foldl_setAdd, mem_setOfList]
  · rw [mem_foldl_setDelete, mem_setOfList]

end TreeView

namespace Combobox

/-- C10: for every snapshot handed to the combobox connect function, the
listbox prop bag is hidden exactly when the state is not open; the input and
button prop bags carry aria-expanded true exactly when the state is open;
and aria-controls on both equals the listbox element id exactly when the
state is open and is undefined (none) otherwise. -/
theorem combobox_connect_aria (stateValue : String) (ctx : ComboboxCtx) :
    ((connectComboboxMachine stateValue ctx).listboxProps.hidden = true
      ↔ ¬ stateValue = "open")
    ∧ ((connectComboboxMachine stateValue ctx).inputProps.ariaExpanded = true
      ↔ stateValue = "open")
    ∧ ((connectComboboxMachine stateValue ctx).buttonProps.ariaExpanded = true
      ↔ stateValue = "open")
    ∧ (connectComboboxMachine stateValue ctx).inputProps.ariaControls
        = (if stateValue = "open" then some (getElementIds ctx.uid).listbox
           else none)
    ∧ (connectComboboxMachine stateValue ctx).buttonProps.ariaControls
        = (if stateValue = "open" then some (getElementIds ctx.uid).listbox
           else none) := by
  by_cases h : stateValue = "open" <;>
    simp [connectComboboxMachine, stateMatches, h]

end Combobox
